import Mathlib

/-!
Shallow embedding of the ingestion core of the Trend news dashboard
(`app.py`): keyword categorization, date normalization, the SQLite-backed
idempotent persistence (`INSERT OR IGNORE` on a url-unique table), the crawl
orchestration loop, the per-source scraper item stages, and the daily-trend
aggregation endpoint.  Machine-level concerns (HTTP, HTML parsing, SQLite
itself) are abstracted: fetch results are passed in as values, and the
articles table is a list of rows whose `INSERT OR IGNORE` semantics
(uniqueness on `url`, NOT NULL columns) are made explicit.
-/

set_option maxRecDepth 4096

namespace Trend

/-! ## Categorizer (`CATEGORY_KEYWORDS`, `categorize`) -/

/-- The fixed, insertion-ordered category-to-keywords table of `app.py`. -/
def CATEGORY_KEYWORDS : List (String × List String) := [
  ("Pemerintahan", ["bupati", "dprd", "pemkab", "peraturan", "perda", "kpu",
    "pilkada", "pemerintah", "kabupaten", "sekda"]),
  ("Ekonomi", ["ekonomi", "investasi", "pasar", "umkm", "industri",
    "pertanian", "ekspor", "impor"]),
  ("Olahraga", ["olahraga", "sepakbola", "voli", "turnamen", "liga",
    "futsal", "piala", "pertandingan"]),
  ("Hukum", ["hukum", "kriminal", "polisi", "pengadilan", "kasus",
    "kejaksaan", "penangkapan", "sidang"])]

/-- Occurrence of `needle` as a contiguous run starting at some position. -/
def hasSubAux (needle : List Char) : List Char → Bool
  | [] => needle == []
  | c :: rest => needle.isPrefixOf (c :: rest) || hasSubAux needle rest

/-- Python `kw in t` substring test. -/
def hasSub (t kw : String) : Bool := hasSubAux kw.data t.data

/-- Python `text.lower()`, character-wise (all text this system lowercases
before matching is Latin). -/
def lowerStr (s : String) : String := String.mk (s.data.map Char.toLower)

/-- `categorize(text)`: `None` and the empty string are falsy and give the
catch-all; otherwise the input is lowercased and the first category (in
declared order) owning a keyword that occurs as a substring wins. -/
def categorize (text : Option String) : String :=
  match text with
  | none => "Lainnya"
  | some t =>
    if t = "" then "Lainnya"
    else
      match CATEGORY_KEYWORDS.find? (fun ck => ck.2.any (fun kw => hasSub (lowerStr t) kw)) with
      | some ck => ck.1
      | none => "Lainnya"

/-- The enumerated category set (four keyword categories plus the catch-all). -/
def CATEGORY_NAMES : List String := ["Pemerintahan", "Ekonomi", "Olahraga", "Hukum", "Lainnya"]

/-! ## DateNormalizer (`normalize_datetime`)

`datetime.strptime` is modelled per directive, following the regular
expressions CPython compiles for the C locale: numeric fields are one or two
digits bounded by their calendar range (`%Y` exactly four digits), format
whitespace matches a run of whitespace, `%B` matches an English month name
case-insensitively, and `%z` matches `Z` or a signed `HH[:]MM` offset with an
optional seconds/fraction tail.  A parse succeeds only when the whole input
is consumed and `datetime(...)` accepts the field values (calendar-valid
day-of-month, year 1..9999); any failure raises, is caught, and the next
format is tried. -/

structure PyDateTime where
  year : Nat
  month : Nat
  day : Nat
  hour : Nat
  minute : Nat
  second : Nat
  tzSeconds : Option Int
deriving DecidableEq

def isLeap (y : Nat) : Bool := y % 4 == 0 && (y % 100 != 0 || y % 400 == 0)

def daysInMonth (y m : Nat) : Nat :=
  if m == 2 then (if isLeap y then 29 else 28)
  else if m == 4 || m == 6 || m == 9 || m == 11 then 30
  else 31

/-- The validation performed by the `datetime` constructor. -/
def validDate (y m d : Nat) : Bool :=
  1 ≤ y && y ≤ 9999 && 1 ≤ m && m ≤ 12 && 1 ≤ d && d ≤ daysInMonth y m

def isDigitC (c : Char) : Bool := '0' ≤ c && c ≤ '9'

def digitVal (c : Char) : Nat := c.toNat - '0'.toNat

def digitsToNat (l : List Char) : Nat := l.foldl (fun acc c => acc * 10 + digitVal c) 0

/-- Take up to `n` leading digits (greedy). -/
def takeDigits : Nat → List Char → (List Char × List Char)
  | 0, s => ([], s)
  | _ + 1, [] => ([], [])
  | n + 1, c :: rest =>
    if isDigitC c then
      let p := takeDigits n rest
      (c :: p.1, p.2)
    else ([], c :: rest)

/-- A one-or-two digit numeric directive whose value must lie in
`[lo, hi]`.  Each such field in the five formats is followed by a non-digit
separator (or end of input), so greedy digit consumption plus a range check
agrees with the backtracking regex alternations CPython uses. -/
def parseNum2 (lo hi : Nat) (s : List Char) : Option (Nat × List Char) :=
  match takeDigits 2 s with
  | ([], _) => none
  | (ds, r) =>
    let v := digitsToNat ds
    if lo ≤ v && v ≤ hi then some (v, r) else none

/-- `%Y`: exactly four digits. -/
def parseYear4 (s : List Char) : Option (Nat × List Char) :=
  match takeDigits 4 s with
  | (ds, r) => if ds.length == 4 then some (digitsToNat ds, r) else none

def expectC (c : Char) (s : List Char) : Option (List Char) :=
  match s with
  | d :: rest => if d == c then some rest else none
  | [] => none

def isSpaceC (c : Char) : Bool :=
  c == ' ' || c == '\t' || c == '\n' || c == '\r' || c == '\x0b' || c == '\x0c'

/-- Format whitespace: one or more whitespace characters. -/
def skipWs1 (s : List Char) : Option (List Char) :=
  match s with
  | c :: rest => if isSpaceC c then some (rest.dropWhile isSpaceC) else none
  | [] => none

def EN_MONTHS : List (String × Nat) := [("January", 1), ("February", 2), ("March", 3),
  ("April", 4), ("May", 5), ("June", 6), ("July", 7), ("August", 8), ("September", 9),
  ("October", 10), ("November", 11), ("December", 12)]

/-- `%B` in the C locale: a full English month name, case-insensitive. -/
def stripMonthEn (s : List Char) : Option (Nat × List Char) :=
  EN_MONTHS.findSome? (fun nm =>
    let name := nm.1.data.map Char.toLower
    if (s.take name.length).map Char.toLower == name then some (nm.2, s.drop name.length)
    else none)

/-- Optional fractional tail of a `%z` seconds group: a dot and one to six
digits (greedy); anything else is left unconsumed. -/
def dropFrac (s : List Char) : List Char :=
  match s with
  | '.' :: rest =>
    let ds := (rest.takeWhile isDigitC).take 6
    if 1 ≤ ds.length then rest.drop ds.length else '.' :: rest
  | other => other

/-- Optional `[:]SS[.ffffff]` tail of a `%z` offset. -/
def tzSecondsPart (s : List Char) : Nat × List Char :=
  match s with
  | ':' :: d1 :: d2 :: rest =>
    if isDigitC d1 && isDigitC d2 then (digitsToNat [d1, d2], dropFrac rest) else (0, s)
  | d1 :: d2 :: rest =>
    if isDigitC d1 && isDigitC d2 then (digitsToNat [d1, d2], dropFrac rest) else (0, s)
  | _ => (0, s)

/-- `%z`: `Z`, or a sign, two hour digits, an optional colon, two minute
digits, and an optional seconds group.  The resulting offset must be
strictly within a day, as enforced by `datetime.timezone`. -/
def parseTz (s : List Char) : Option (Int × List Char) :=
  match s with
  | 'Z' :: rest => some (0, rest)
  | c :: rest =>
    if c == '+' || c == '-' then
      match takeDigits 2 rest with
      | (ds, r) =>
        if ds.length == 2 then
          let hh := digitsToNat ds
          let r1 := match r with
            | ':' :: r2 => r2
            | other => other
          match takeDigits 2 r1 with
          | (ms, r2) =>
            if ms.length == 2 then
              let mm := digitsToNat ms
              let sp := tzSecondsPart r2
              let total : Int := (hh * 3600 + mm * 60 + sp.1 : Nat)
              let off : Int := if c == '-' then -total else total
              if -86400 < off && off < 86400 then some (off, sp.2) else none
            else none
        else none
    else none
  | [] => none

def mkDT (y mo d h mi s : Nat) (tz : Option Int) : Option PyDateTime :=
  if validDate y mo d then some ⟨y, mo, d, h, mi, s, tz⟩ else none

/-- `"%Y-%m-%dT%H:%M:%S%z"`. -/
def fmtAwareIso (s : List Char) : Option PyDateTime := do
  let (y, s1) ← parseYear4 s
  let s2 ← expectC '-' s1
  let (mo, s3) ← parseNum2 1 12 s2
  let s4 ← expectC '-' s3
  let (d, s5) ← parseNum2 1 31 s4
  let s6 ← expectC 'T' s5
  let (h, s7) ← parseNum2 0 23 s6
  let s8 ← expectC ':' s7
  let (mi, s9) ← parseNum2 0 59 s8
  let s10 ← expectC ':' s9
  let (sec, s11) ← parseNum2 0 59 s10
  let (tz, s12) ← parseTz s11
  if s12 = [] then mkDT y mo d h mi sec (some tz) else none

/-- `"%Y-%m-%dT%H:%M:%S"`. -/
def fmtNaiveIso (s : List Char) : Option PyDateTime := do
  let (y, s1) ← parseYear4 s
  let s2 ← expectC '-' s1
  let (mo, s3) ← parseNum2 1 12 s2
  let s4 ← expectC '-' s3
  let (d, s5) ← parseNum2 1 31 s4
  let s6 ← expectC 'T' s5
  let (h, s7) ← parseNum2 0 23 s6
  let s8 ← expectC ':' s7
  let (mi, s9) ← parseNum2 0 59 s8
  let s10 ← expectC ':' s9
  let (sec, s11) ← parseNum2 0 59 s10
  if s11 = [] then mkDT y mo d h mi sec none else none

/-- `"%d %B %Y"`. -/
def fmtLongDate (s : List Char) : Option PyDateTime := do
  let (d, s1) ← parseNum2 1 31 s
  let s2 ← skipWs1 s1
  let (mo, s3) ← stripMonthEn s2
  let s4 ← skipWs1 s3
  let (y, s5) ← parseYear4 s4
  if s5 = [] then mkDT y mo d 0 0 0 none else none

/-- `"%d/%m/%Y"`. -/
def fmtSlashDate (s : List Char) : Option PyDateTime := do
  let (d, s1) ← parseNum2 1 31 s
  let s2 ← expectC '/' s1
  let (mo, s3) ← parseNum2 1 12 s2
  let s4 ← expectC '/' s3
  let (y, s5) ← parseYear4 s4
  if s5 = [] then mkDT y mo d 0 0 0 none else none

/-- `"%Y-%m-%d"`. -/
def fmtBareDate (s : List Char) : Option PyDateTime := do
  let (y, s1) ← parseYear4 s
  let s2 ← expectC '-' s1
  let (mo, s3) ← parseNum2 1 12 s2
  let s4 ← expectC '-' s3
  let (d, s5) ← parseNum2 1 31 s4
  if s5 = [] then mkDT y mo d 0 0 0 none else none

/-- The fixed, ordered `candidates` list of `normalize_datetime`. -/
def candidates : List (List Char → Option PyDateTime) :=
  [fmtAwareIso, fmtNaiveIso, fmtLongDate, fmtSlashDate, fmtBareDate]

def tryFormats : List (List Char → Option PyDateTime) → List Char → Option PyDateTime
  | [], _ => none
  | f :: fs, s =>
    match f s with
    | some v => some v
    | none => tryFormats fs s

/-- `normalize_datetime(dt_str)`: the formats are tried in order and the
first successful parse wins; every failure (including the `TypeError` that
`strptime` raises on `None`) is caught, and when nothing parses the function
returns `datetime.utcnow()`, passed here as the `now` argument. -/
def normalize_datetime (now : PyDateTime) (s : Option String) : PyDateTime :=
  match s with
  | none => now
  | some str => (tryFormats candidates str.data).getD now

def pad2 (n : Nat) : String := if n < 10 then "0" ++ toString n else toString n

def pad4 (n : Nat) : String :=
  if n < 10 then "000" ++ toString n
  else if n < 100 then "00" ++ toString n
  else if n < 1000 then "0" ++ toString n
  else toString n

def tzSuffix : Option Int → String
  | none => ""
  | some off =>
    let sign := if off < 0 then "-" else "+"
    let a := off.natAbs
    sign ++ pad2 (a / 3600) ++ ":" ++ pad2 (a % 3600 / 60) ++
      (if a % 60 == 0 then "" else ":" ++ pad2 (a % 60))

/-- `datetime.isoformat()` (microseconds are always zero here). -/
def isoOf (dt : PyDateTime) : String :=
  pad4 dt.year ++ "-" ++ pad2 dt.month ++ "-" ++ pad2 dt.day ++ "T" ++
    pad2 dt.hour ++ ":" ++ pad2 dt.minute ++ ":" ++ pad2 dt.second ++ tzSuffix dt.tzSeconds

/-! ## `parse_id_date` (the Indonesian long-form date helper)

The source compiles `re.search` on the RAW string
`r'(\\d{1,2})\\s+(Januari|...|Desember)\\s+(\\d{4})'`.  Because the string
is raw, each `\\` reaches the regex engine as two characters and denotes one
LITERAL backslash; `d{1,2}` then means one or two literal `d` characters and
`s+` a run of literal `s` characters.  The pattern therefore matches only
text of the shape `\d..\ss..Month\ss..\dddd`, never a real date.  The model
below embeds that compiled pattern faithfully. -/

def MONTHS_ID : List (String × Nat) := [("Januari", 1), ("Februari", 2), ("Maret", 3),
  ("April", 4), ("Mei", 5), ("Juni", 6), ("Juli", 7), ("Agustus", 8), ("September", 9),
  ("Oktober", 10), ("November", 11), ("Desember", 12)]

/-- Case-sensitive month-name alternation of the pattern. -/
def stripMonthId (s : List Char) : Option (String × List Char) :=
  MONTHS_ID.findSome? (fun nm =>
    if nm.1.data.isPrefixOf s then some (nm.1, s.drop nm.1.data.length) else none)

/-- Match the compiled pattern at the start of `s`, returning the texts of
groups 1 and 3 and the month name (group 2). -/
def matchIdAt (s : List Char) : Option (String × String × String) := do
  let s1 ← expectC '\\' s
  let ds := s1.takeWhile (fun c => c == 'd')
  if 1 ≤ ds.length && ds.length ≤ 2 then
    let s2 := s1.drop ds.length
    let s3 ← expectC '\\' s2
    let ss := s3.takeWhile (fun c => c == 's')
    if 1 ≤ ss.length then
      let s4 := s3.drop ss.length
      let (mon, s5) ← stripMonthId s4
      let s6 ← expectC '\\' s5
      let ss2 := s6.takeWhile (fun c => c == 's')
      if 1 ≤ ss2.length then
        let s7 := s6.drop ss2.length
        let s8 ← expectC '\\' s7
        let ds2 := s8.takeWhile (fun c => c == 'd')
        if 4 ≤ ds2.length then
          some (String.mk ('\\' :: ds), mon, String.mk ('\\' :: ds2.take 4))
        else none
      else none
    else none
  else none

/-- `re.search`: try the pattern at every start position. -/
def regexSearchId : List Char → Option (String × String × String)
  | [] => none
  | c :: rest =>
    match matchIdAt (c :: rest) with
    | some g => some g
    | none => regexSearchId rest

/-- Python `int(str)` restricted to its use sites here: digits only. -/
def parseNatPy (s : String) : Option Nat :=
  if s.data ≠ [] && s.data.all isDigitC then some (digitsToNat s.data) else none

def bulan (m : String) : Nat :=
  (((MONTHS_ID.find? (fun p => p.1 == m)).map Prod.snd)).getD 0

/-- `parse_id_date(txt)`: falsy input and a failed search both yield `None`;
on a match, `int(m.group(1))` and `int(m.group(3))` are taken (an uncaught
`ValueError`, modelled as `Except.error`, when the group text is not a
number — which, with the compiled pattern above, is every match, since the
groups start with a literal backslash), and `datetime(y, mon, d)` is tried
with `None` returned if it raises. -/
def parse_id_date (txt : Option String) : Except Unit (Option String) :=
  match txt with
  | none => Except.ok none
  | some t =>
    match regexSearchId t.data with
    | none => Except.ok none
    | some (g1, mon, g3) =>
      match parseNatPy g1, parseNatPy g3 with
      | some d, some y =>
        let m := bulan mon
        Except.ok (if validDate y m d then some (isoOf ⟨y, m, d, 0, 0, 0, none⟩) else none)
      | _, _ => Except.error ()

/-! ## Article store (`init_db` schema plus `INSERT OR IGNORE`) -/

/-- One row of the `articles` table.  `id` (auto-increment surrogate) is
omitted: no claim mentions it and it is determined by insertion order. -/
structure DbRow where
  title : String
  url : String
  source : String
  published_at : String
  created_at : String
  category : String
deriving DecidableEq

abbrev Store := List DbRow

/-- `INSERT OR IGNORE INTO articles (title, url, source, published_at,
created_at, category) VALUES (...)` against the `init_db` schema: `url` is
UNIQUE and `title, url, source, published_at, created_at` are NOT NULL.
An `Option.none` argument models binding SQL NULL.  Under `OR IGNORE`, a row
violating uniqueness or a NOT NULL constraint is silently skipped and
`cur.rowcount` is 0; otherwise the row is appended and `rowcount` is 1. -/
def insertOrIgnore (st : Store) (title url source published_at created_at : Option String)
    (category : String) : Store × Bool :=
  match title, url, source, published_at, created_at with
  | some t, some u, some s, some p, some c =>
    if st.any (fun r => r.url == u) then (st, false)
    else (st ++ [⟨t, u, s, p, c, category⟩], true)
  | _, _, _, _, _ => (st, false)

/-- A scraper item dict.  Fields are `Option`s; for `published_at` the outer
`Option` distinguishes a dict without the key (`none`, so `dict.get` takes
its default) from a key bound to `None` (`some none`).  `source` is `none`
when the key is absent (`a.get("source", "")` then yields `""`).  `summary`
is `none` for a falsy summary (absent key, `None`, or empty string). -/
structure RawItem where
  title : Option String
  url : Option String
  source : Option String
  published_at : Option (Option String)
  summary : Option String
deriving DecidableEq

/-- One iteration of the loop body of the live `save_articles` (the second
definition, lines 381-412, which shadows the earlier normalizing one).
It reads the fields, derives the category from the title (with the summary
appended when the summary is truthy), and runs the `INSERT OR IGNORE`.
`Except.error` models the uncaught `TypeError` of `None + " " + summary`
(the `categorize` call sits outside the `try` block). -/
def save_step (now : String) (st : Store) (a : RawItem) : Except Unit (Store × Bool) :=
  let pub : Option String := match a.published_at with
    | none => some now
    | some v => v
  match a.summary with
  | some sm =>
    match a.title with
    | none => Except.error ()
    | some t =>
      Except.ok (insertOrIgnore st a.title a.url (some (a.source.getD "")) pub (some now)
        (categorize (some (t ++ " " ++ sm))))
  | none =>
    Except.ok (insertOrIgnore st a.title a.url (some (a.source.getD "")) pub (some now)
      (categorize a.title))

/-- The item loop of `save_articles`, threading the store and the running
`total`.  An uncaught exception aborts the whole call; the SQLite connection
is then never committed, so the store reverts to its pre-call state (the
caller `crawl_all` keeps its previous accumulator). -/
def save_go (now : String) : List RawItem → Store → Nat → Except Unit (Store × Nat)
  | [], st, total => Except.ok (st, total)
  | a :: rest, st, total =>
    match save_step now st a with
    | Except.error e => Except.error e
    | Except.ok (st2, b) => save_go now rest st2 (total + if b then 1 else 0)

/-- The live `save_articles(items)`: empty input short-circuits to 0,
otherwise every item goes through `save_step`, and the count of actually
inserted rows is returned.  Note that `normalize_datetime` is NOT called:
the raw `published_at` text (defaulted to the current instant only when the
key is absent) is bound directly into the INSERT. -/
def save_articles (now : String) (items : List RawItem) (st : Store) : Except Unit (Store × Nat) :=
  if items.isEmpty then Except.ok (st, 0)
  else save_go now items st 0

/-- `crawl_all()`: each adapter call is modelled by its outcome, either a
raised exception (`Except.error`) or a returned item list.  The body
`try: items = s(); total += save_articles(items) except: continue` skips a
faulty adapter (and likewise discards an aborted `save_articles`, whose
uncommitted inserts roll back) and keeps going. -/
def crawl_all (now : String) (adapters : List (Except Unit (List RawItem))) (st : Store) :
    Store × Nat :=
  adapters.foldl (fun acc ad =>
    match ad with
    | Except.error _ => acc
    | Except.ok items =>
      match save_articles now items acc.1 with
      | Except.error _ => acc
      | Except.ok (st2, n) => (st2, acc.2 + n)) (st, 0)

/-! ## Scraper per-candidate stages (secondary fetches)

The listing-level stage (request, selector scan, link filtering) is
abstracted away: the models below start from the candidate lists those
stages produce, which is where the claims about the per-candidate secondary
fetch live.  A secondary fetch outcome is passed in as a value: either a
raised request error or the parsed page content that matters to the
scraper. -/

/-- What `scraper_detik` reads from a fetched article page: the first
`time` tag's `datetime` attribute (when present and non-empty) and its
stripped text (when non-empty).  `scraper_tribunjatim` and
`scraper_wartajombang` share this shape. -/
structure DetikPage where
  timeDatetime : Option String
  timeText : Option String
deriving DecidableEq

/-- The `pub` computation of `scraper_detik`'s loop body: on a fetch error
the `except` clause sets `pub` to the current instant; on success the
machine-readable attribute is preferred, then the display text, and `pub`
stays `None` when the page has neither. -/
def detik_pub (now : String) (fr : Except Unit DetikPage) : Option String :=
  match fr with
  | Except.error _ => some now
  | Except.ok pg =>
    match pg.timeDatetime with
    | some v => some v
    | none => pg.timeText

/-- The per-candidate stage of `scraper_detik`: every candidate `(url,
title)` that reached this stage is appended to `items`, whatever the
secondary fetch did. -/
def scraper_detik_items (now : String) (cands : List (String × String))
    (page : String → Except Unit DetikPage) : List RawItem :=
  cands.map (fun c =>
    ⟨some c.2, some c.1, some "detik.com", some (detik_pub now (page c.1)), none⟩)

/-- What `scraper_jombangkab` reads from a fetched article page: the text of
the first `h1`/`h2`/`h3` (the title comes from the secondary fetch itself)
and the flattened page text handed to `parse_id_date`. -/
structure JkPage where
  headingTitle : Option String
  bodyText : String
deriving DecidableEq

/-- The per-candidate loop of `scraper_jombangkab`: a failed secondary fetch
hits `continue`, DROPPING the candidate; on success the date is scanned from
the body text (`parse_id_date` may raise, aborting the whole scraper), the
current instant is the fallback, and the item is appended only when both
title and url are truthy. -/
def scraper_jombangkab_go (now : String) (page : String → Except Unit JkPage) :
    List String → Except Unit (List RawItem)
  | [] => Except.ok []
  | url :: rest =>
    match page url with
    | Except.error _ => scraper_jombangkab_go now page rest
    | Except.ok pg =>
      match parse_id_date (some pg.bodyText) with
      | Except.error e => Except.error e
      | Except.ok pubOpt =>
        let pub := pubOpt.getD now
        match scraper_jombangkab_go now page rest with
        | Except.error e => Except.error e
        | Except.ok items =>
          match pg.headingTitle with
          | some t =>
            if t != "" && url != "" then
              Except.ok (⟨some t, some url, some "jombangkab.go.id", some (some pub), none⟩ :: items)
            else Except.ok items
          | none => Except.ok items

/-! ## Daily-trend aggregation (`api_trend`)

Instants are modelled as minutes since an epoch; under the store's intended
ISO-8601 text representation, SQLite's `datetime(published_at)` comparison
agrees with instant order and the ten-character date prefix used by
`GROUP BY` agrees with the calendar day `dayOf`. -/

structure TrendRow where
  publishedAt : Nat
deriving DecidableEq

def dayOf (t : Nat) : Nat := t / 1440

/-- The grouped query `SELECT substr(published_at,1,10) d, COUNT(*) c ...
WHERE datetime(published_at) >= datetime(since) GROUP BY d`, looked up at
day `d` with default 0 (`map_counts.get(d.isoformat(), 0)`). -/
def trendCount (st : List TrendRow) (since : Nat) (d : Nat) : Nat :=
  (st.filter (fun a => since ≤ a.publishedAt && dayOf a.publishedAt == d)).length

/-- `api_trend(days)`: `since = utcnow() - timedelta(days=days)`, one label
per day of `[since.date() + i for i in range(days+1)]`, each count taken
from the grouped query with missing days filled with zero. -/
def api_trend (st : List TrendRow) (now days : Nat) : List (Nat × Nat) :=
  let since := now - days * 1440
  (List.range (days + 1)).map (fun i => (dayOf since + i, trendCount st since (dayOf since + i)))

/-! ## Theorems -/

/-- `find?` returns the element at the first index satisfying the predicate. -/
theorem find?_first {α : Type} (p : α → Bool) :
    ∀ (l : List α) (i : Nat) (hi : i < l.length),
      p (l.get ⟨i, hi⟩) = true →
      (∀ (j : Nat) (hj : j < l.length), j < i → p (l.get ⟨j, hj⟩) = false) →
      l.find? p = some (l.get ⟨i, hi⟩)
  | [], i, hi, _, _ => absurd hi (by simp)
  | a :: t, 0, _, hp, _ => by
    simpa using List.find?_cons_of_pos (p := p) t (by simpa using hp)
  | a :: t, i + 1, hi, hp, hmin => by
    have ha : p a = false := hmin 0 (by simp) (Nat.succ_pos i)
    rw [List.find?_cons_of_neg _ (by simp [ha])]
    exact find?_first p t i (by simpa using hi) (by simpa using hp)
      (fun j hj hlt => by
        simpa using hmin (j + 1) (by simpa using hj) (Nat.succ_lt_succ hlt))

/-- Claim C4: `categorize` lowercases its input and scans the category table
in declared order, returning the first category one of whose keywords occurs
as a substring of the lowered text; it returns the catch-all "Lainnya" for
absent or empty input and when no keyword matches; its result always lies in
the fixed enumerated category set, and equal inputs give equal outputs. -/
theorem categorize_spec :
    (∀ t, categorize t ∈ CATEGORY_NAMES)
    ∧ categorize none = "Lainnya"
    ∧ categorize (some "") = "Lainnya"
    ∧ (∀ s : String, (∀ ck ∈ CATEGORY_KEYWORDS, ∀ kw ∈ ck.2, hasSub (lowerStr s) kw = false) →
        categorize (some s) = "Lainnya")
    ∧ (∀ (s : String) (i : Nat) (hi : i < CATEGORY_KEYWORDS.length),
        s ≠ "" →
        (CATEGORY_KEYWORDS.get ⟨i, hi⟩).2.any (fun kw => hasSub (lowerStr s) kw) = true →
        (∀ (j : Nat) (hj : j < CATEGORY_KEYWORDS.length), j < i →
          (CATEGORY_KEYWORDS.get ⟨j, hj⟩).2.any (fun kw => hasSub (lowerStr s) kw) = false) →
        categorize (some s) = (CATEGORY_KEYWORDS.get ⟨i, hi⟩).1)
    ∧ (∀ t1 t2 : Option String, t1 = t2 → categorize t1 = categorize t2) := by
  refine ⟨?_, rfl, by simp [categorize], ?_, ?_, fun t1 t2 h => by rw [h]⟩
  · intro t
    match t with
    | none => simp [categorize, CATEGORY_NAMES]
    | some s =>
      by_cases hs : s = ""
      · simp [categorize, hs, CATEGORY_NAMES]
      · cases hfind : CATEGORY_KEYWORDS.find? (fun ck => ck.2.any (fun kw => hasSub (lowerStr s) kw)) with
        | none => simp [categorize, hs, hfind, CATEGORY_NAMES]
        | some ck =>
          have hmem := List.mem_of_find?_eq_some hfind
          have hcat : categorize (some s) = ck.1 := by simp [categorize, hs, hfind]
          rw [hcat]
          simp only [CATEGORY_KEYWORDS, List.mem_cons, List.not_mem_nil, or_false] at hmem
          rcases hmem with h | h | h | h <;> subst h <;> simp [CATEGORY_NAMES]
  · intro s h
    have hfind : CATEGORY_KEYWORDS.find? (fun ck => ck.2.any (fun kw => hasSub (lowerStr s) kw))
        = none := by
      rw [List.find?_eq_none]
      intro ck hck hany
      rw [List.any_eq_true] at hany
      rcases hany with ⟨kw, hkw, hsub⟩
      rw [h ck hck kw hkw] at hsub
      exact Bool.false_ne_true hsub
    by_cases hs : s = ""
    · simp [categorize, hs]
    · simp [categorize, hs, hfind]
  · intro s i hi hs hp hmin
    have hfind := find?_first (fun ck => ck.2.any (fun kw => hasSub (lowerStr s) kw))
      CATEGORY_KEYWORDS i hi hp hmin
    simp [categorize, hs, hfind]

/-- Witness for C4 at concrete inputs: a title with an "Ekonomi" keyword
(and none from the earlier "Pemerintahan" list) maps to "Ekonomi", and a
keyword-free title maps to the catch-all. -/
theorem categorize_spec_witness :
    categorize (some "Harga pasar naik") = "Ekonomi"
    ∧ categorize (some "zzz") = "Lainnya" := by
  constructor
  · have h := categorize_spec.2.2.2.2.1 "Harga pasar naik" 1 (by decide) (by decide) (by decide)
      (fun j hj hlt => by
        have hj0 : j = 0 := by omega
        subst hj0
        exact (by decide : ((CATEGORY_KEYWORDS.get ⟨0, by decide⟩).2.any
          fun kw => hasSub (lowerStr "Harga pasar naik") kw) = false))
    exact h.trans (by decide)
  · exact categorize_spec.2.2.2.1 "zzz" (by decide)

theorem tryFormats_of_all_none :
    ∀ (fs : List (List Char → Option PyDateTime)) (s : List Char),
      (∀ f ∈ fs, f s = none) → tryFormats fs s = none
  | [], _, _ => rfl
  | f :: fs, s, h => by
    have hf : f s = none := h f (List.mem_cons_self f fs)
    have ht := tryFormats_of_all_none fs s (fun g hg => h g (List.mem_cons_of_mem f hg))
    simp [tryFormats, hf, ht]

theorem tryFormats_of_first :
    ∀ (fs : List (List Char → Option PyDateTime)) (s : List Char) (i : Nat)
      (hi : i < fs.length) (v : PyDateTime),
      fs.get ⟨i, hi⟩ s = some v →
      (∀ (j : Nat) (hj : j < fs.length), j < i → fs.get ⟨j, hj⟩ s = none) →
      tryFormats fs s = some v
  | [], _, i, hi, _, _, _ => absurd hi (by simp)
  | f :: fs, s, 0, _, v, hv, _ => by
    simp only [List.get] at hv
    simp [tryFormats, hv]
  | f :: fs, s, i + 1, hi, v, hv, hmin => by
    have hf : f s = none := hmin 0 (by simp) (Nat.succ_pos i)
    have ht := tryFormats_of_first fs s i (by simpa using hi) v (by simpa using hv)
      (fun j hj hlt => by
        simpa using hmin (j + 1) (by simpa using hj) (Nat.succ_lt_succ hlt))
    simp [tryFormats, hf, ht]

/-- Claim C3: `normalize_datetime` tries the fixed ordered format list
(offset-aware ISO-8601, offset-naive ISO-8601, long localized date, slash
date, bare date), first successful parse winning; absent input and input
matching no pattern resolve to the current instant at call time, and the
function is total (every parse failure is caught, never propagated). -/
theorem normalize_datetime_spec :
    (∀ now, normalize_datetime now none = now)
    ∧ (∀ (now : PyDateTime) (s : String),
        (∀ f ∈ candidates, f s.data = none) → normalize_datetime now (some s) = now)
    ∧ (∀ (now : PyDateTime) (s : String) (v : PyDateTime) (i : Nat)
         (hi : i < candidates.length),
        candidates.get ⟨i, hi⟩ s.data = some v →
        (∀ (j : Nat) (hj : j < candidates.length), j < i → candidates.get ⟨j, hj⟩ s.data = none) →
        normalize_datetime now (some s) = v) := by
  refine ⟨fun _ => rfl, ?_, ?_⟩
  · intro now s h
    simp [normalize_datetime, tryFormats_of_all_none candidates s.data h]
  · intro now s v i hi hv hmin
    simp [normalize_datetime, tryFormats_of_first candidates s.data i hi v hv hmin]

/-- Witness for C3: a pattern-free string falls back to the injected `now`,
and a bare date is parsed by the fifth format after the first four fail. -/
theorem normalize_datetime_spec_witness :
    normalize_datetime ⟨2025, 1, 2, 3, 4, 5, none⟩ (some "hello") = ⟨2025, 1, 2, 3, 4, 5, none⟩
    ∧ normalize_datetime ⟨2025, 1, 2, 3, 4, 5, none⟩ (some "2025-08-25")
        = ⟨2025, 8, 25, 0, 0, 0, none⟩ := by
  constructor
  · exact normalize_datetime_spec.2.1 ⟨2025, 1, 2, 3, 4, 5, none⟩ "hello" (by decide)
  · exact normalize_datetime_spec.2.2 ⟨2025, 1, 2, 3, 4, 5, none⟩ "2025-08-25"
      ⟨2025, 8, 25, 0, 0, 0, none⟩ 4 (by decide) (by decide)
      (fun j hj hlt => by
        have hj4 : j = 0 ∨ j = 1 ∨ j = 2 ∨ j = 3 := by omega
        rcases hj4 with h | h | h | h
        · subst h; exact (by decide : candidates.get ⟨0, by decide⟩ ("2025-08-25".data) = none)
        · subst h; exact (by decide : candidates.get ⟨1, by decide⟩ ("2025-08-25".data) = none)
        · subst h; exact (by decide : candidates.get ⟨2, by decide⟩ ("2025-08-25".data) = none)
        · subst h; exact (by decide : candidates.get ⟨3, by decide⟩ ("2025-08-25".data) = none))

/-- Claim C1: with no row for `u` in the store, the first insert writes the
row and reports inserted; afterwards exactly one row carries `u`, and any
second insert of the same url leaves the store untouched (every field of
the existing row included), reports not-inserted, and raises no error —
also through the live `save_articles` loop, which adds 0 to its total. -/
theorem insertIfAbsent_idempotent (st : Store) (t u s p c cat : String)
    (h : (st.filter (fun r => r.url == u)).length = 0) :
    insertOrIgnore st (some t) (some u) (some s) (some p) (some c) cat
      = (st ++ [(⟨t, u, s, p, c, cat⟩ : DbRow)], true)
    ∧ ((st ++ [(⟨t, u, s, p, c, cat⟩ : DbRow)]).filter (fun r => r.url == u)).length = 1
    ∧ (∀ t2 s2 p2 c2 cat2 : String,
        insertOrIgnore (st ++ [(⟨t, u, s, p, c, cat⟩ : DbRow)]) (some t2) (some u) (some s2) (some p2)
          (some c2) cat2 = (st ++ [(⟨t, u, s, p, c, cat⟩ : DbRow)], false))
    ∧ (∀ (now : String) (a2 : RawItem), a2.url = some u → a2.summary = none →
        save_articles now [a2] (st ++ [(⟨t, u, s, p, c, cat⟩ : DbRow)])
          = Except.ok (st ++ [(⟨t, u, s, p, c, cat⟩ : DbRow)], 0)) := by
  have hfe : st.filter (fun r => r.url == u) = [] := List.length_eq_zero.mp h
  have hany : st.any (fun r => r.url == u) = false := by
    cases hb : st.any (fun r => r.url == u)
    · rfl
    · exfalso
      rcases List.any_eq_true.mp hb with ⟨r, hr, hru⟩
      have hmem : r ∈ st.filter (fun r => r.url == u) := List.mem_filter.mpr ⟨hr, hru⟩
      rw [hfe] at hmem
      exact List.not_mem_nil r hmem
  have hany2 : (st ++ [(⟨t, u, s, p, c, cat⟩ : DbRow)]).any (fun r => r.url == u) = true := by
    rw [List.any_eq_true]
    exact ⟨(⟨t, u, s, p, c, cat⟩ : DbRow), by simp, by simp⟩
  refine ⟨by simp [insertOrIgnore, hany], ?_, ?_, ?_⟩
  · simp [List.filter_append, hfe]
  · intro t2 s2 p2 c2 cat2
    simp [insertOrIgnore, hany2]
  · intro now a2 hu2 hsum
    obtain ⟨ti, ur, so, pu, su⟩ := a2
    have hu3 : ur = some u := hu2
    have hs3 : su = none := hsum
    subst hu3
    subst hs3
    rcases pu with _ | pv
    · rcases ti with _ | t3 <;> simp [save_articles, save_go, save_step, insertOrIgnore, hany2]
    · rcases pv with _ | v <;> rcases ti with _ | t3 <;>
        simp [save_articles, save_go, save_step, insertOrIgnore, hany2]

/-- Witness for C1: re-inserting url `https://x/1` into the one-row store
produced by its first insert is a no-op reporting not-inserted. -/
theorem insertIfAbsent_idempotent_witness :
    insertOrIgnore
      [⟨"Bupati resmikan jalan", "https://x/1", "s1", "2024-01-01T00:00:00",
        "2024-01-01T00:00:00", "Pemerintahan"⟩]
      (some "Judul lain") (some "https://x/1") (some "s2") (some "p2") (some "c2") "Lainnya"
      = ([⟨"Bupati resmikan jalan", "https://x/1", "s1", "2024-01-01T00:00:00",
          "2024-01-01T00:00:00", "Pemerintahan"⟩], false) :=
  (insertIfAbsent_idempotent [] "Bupati resmikan jalan" "https://x/1" "s1"
    "2024-01-01T00:00:00" "2024-01-01T00:00:00" "Pemerintahan" (by decide)).2.2.1
    "Judul lain" "s2" "p2" "c2" "Lainnya"

theorem save_step_null_title (now : String) (st : Store) (a : RawItem)
    (ht : a.title = none) (hs : a.summary = none) :
    save_step now st a = Except.ok (st, false) := by
  obtain ⟨ti, ur, so, pu, su⟩ := a
  have ht2 : ti = none := ht
  have hs2 : su = none := hs
  subst ht2
  subst hs2
  rcases pu with _ | pv
  · rcases ur with _ | u <;> simp [save_step, insertOrIgnore]
  · rcases pv with _ | v <;> rcases ur with _ | u <;> simp [save_step, insertOrIgnore]

theorem save_go_skip_null (now : String) (a : RawItem) (ht : a.title = none)
    (hs : a.summary = none) :
    ∀ (xs ys : List RawItem) (st : Store) (total : Nat),
      save_go now (xs ++ a :: ys) st total = save_go now (xs ++ ys) st total
  | [], ys, st, total => by
    simp [save_go, save_step_null_title now st a ht hs]
  | x :: xs, ys, st, total => by
    simp only [List.cons_append, save_go]
    cases hstep : save_step now st x with
    | error e => simp [hstep]
    | ok r => simp [hstep, save_go_skip_null now a ht hs xs ys r.1 (total + if r.2 then 1 else 0)]

/-- Claim C10: an item with absent title and no summary is absorbed at the
store boundary — the call completes without raising, writes no row for the
item, does not count it, and the surrounding batch is processed exactly as
if the item were not there. -/
theorem save_articles_null_title (now : String) (xs ys : List RawItem) (st : Store)
    (a : RawItem) (ht : a.title = none) (hs : a.summary = none) :
    save_articles now (xs ++ a :: ys) st = save_articles now (xs ++ ys) st := by
  have hgo := save_go_skip_null now a ht hs xs ys st 0
  cases xs with
  | nil =>
    cases ys with
    | nil => simp [save_articles, save_go, save_step_null_title now st a ht hs]
    | cons y ys2 => simpa [save_articles] using hgo
  | cons x xs2 => simpa [save_articles] using hgo

/-- Witness for C10: a batch holding a title-less, summary-less item and a
normal item behaves exactly like the batch without the bad item. -/
theorem save_articles_null_title_witness :
    save_articles "N" [⟨none, some "https://x/9", some "s", some (some "P"), none⟩,
        ⟨some "Judul", some "https://x/10", some "s", some (some "P"), none⟩] []
      = save_articles "N" [⟨some "Judul", some "https://x/10", some "s", some (some "P"), none⟩]
          [] :=
  save_articles_null_title "N" []
    [⟨some "Judul", some "https://x/10", some "s", some (some "P"), none⟩] []
    ⟨none, some "https://x/9", some "s", some (some "P"), none⟩ rfl rfl

/-- Counterexample to C8 as stated: a candidate with an EMPTY url is not
rejected with an error — the live `save_articles` persists it as an
ordinary row and counts it as inserted. -/
theorem empty_url_counterexample :
    save_articles "2025-01-01T00:00:00"
      [⟨some "Judul", some "", some "s1", some (some "2025-01-01T00:00:00"), none⟩] []
      = Except.ok ([⟨"Judul", "", "s1", "2025-01-01T00:00:00", "2025-01-01T00:00:00",
          "Lainnya"⟩], 1) := rfl

/-- Claim C8 as amended: the store boundary applies no url-emptiness check.
An empty-string url candidate is persisted like any other url value
(inserted and counted when the url is new, ignored as a duplicate
otherwise), and an absent (SQL NULL) url is silently skipped by
`INSERT OR IGNORE` with no error and no row; no specific error is surfaced
to the caller in either case. -/
theorem empty_url_policy (st : Store) (t s p now cat : String)
    (h : st.any (fun r => r.url == "") = false) :
    insertOrIgnore st (some t) (some "") (some s) (some p) (some now) cat
      = (st ++ [(⟨t, "", s, p, now, cat⟩ : DbRow)], true)
    ∧ (∀ title source pub created : Option String, ∀ cat2 : String,
        insertOrIgnore st title none source pub created cat2 = (st, false))
    ∧ (∀ t2 s2 p2 c2 cat2 : String,
        insertOrIgnore (st ++ [(⟨t, "", s, p, now, cat⟩ : DbRow)]) (some t2) (some "") (some s2)
          (some p2) (some c2) cat2 = (st ++ [(⟨t, "", s, p, now, cat⟩ : DbRow)], false)) := by
  have hany2 : (st ++ [(⟨t, "", s, p, now, cat⟩ : DbRow)]).any (fun r => r.url == "") = true := by
    rw [List.any_eq_true]
    exact ⟨(⟨t, "", s, p, now, cat⟩ : DbRow), by simp, by simp⟩
  refine ⟨by simp [insertOrIgnore, h], ?_, ?_⟩
  · intro title source pub created cat2
    rcases title with _ | t2 <;> rcases source with _ | s2 <;> rcases pub with _ | p2 <;>
      rcases created with _ | c2 <;> simp [insertOrIgnore]
  · intro t2 s2 p2 c2 cat2
    simp [insertOrIgnore, hany2]

/-- Witness for C8 (amended): on the empty store, the empty-url candidate is
inserted, and a null url is skipped without error. -/
theorem empty_url_policy_witness :
    insertOrIgnore ([] : Store) (some "T") (some "") (some "S") (some "P") (some "N") "Lainnya"
      = ([⟨"T", "", "S", "P", "N", "Lainnya"⟩], true)
    ∧ insertOrIgnore ([] : Store) (some "T") none (some "S") (some "P") (some "N") "Lainnya"
      = ([], false) :=
  ⟨(empty_url_policy [] "T" "S" "P" "N" "Lainnya" rfl).1,
   (empty_url_policy [] "T" "S" "P" "N" "Lainnya" rfl).2.1 (some "T") (some "S") (some "P")
     (some "N") "Lainnya"⟩

/-- Claim C2 (code bug): the live `save_articles` does NOT route the raw
timestamp through `normalize_datetime` — the slash date `25/08/2025`, which
the normalizer parses to `2025-08-25T00:00:00`, is stored verbatim (while
the category IS derived via `categorize` before the insert, here from the
keyword `pasar`). -/
theorem save_articles_raw_published_at :
    save_articles "2025-09-01T00:00:00"
      [⟨some "Berita pasar", some "https://x/2", some "s1", some (some "25/08/2025"), none⟩] []
      = Except.ok ([⟨"Berita pasar", "https://x/2", "s1", "25/08/2025",
          "2025-09-01T00:00:00", "Ekonomi"⟩], 1)
    ∧ tryFormats candidates ("25/08/2025".data) = some ⟨2025, 8, 25, 0, 0, 0, none⟩
    ∧ isoOf ⟨2025, 8, 25, 0, 0, 0, none⟩ = "2025-08-25T00:00:00"
    ∧ ("25/08/2025" : String) ≠ "2025-08-25T00:00:00" := by
  exact ⟨rfl, by decide, by decide, by decide⟩

/-- Claim C5: a raised adapter call contributes nothing and aborts nothing —
one `crawl_all` pass over any adapter list containing a raising adapter
equals the pass over the same list with that adapter removed, so the other
sources' contributions and the returned total are unchanged. -/
theorem crawl_all_fault_isolation (now : String) (xs ys : List (Except Unit (List RawItem)))
    (st : Store) :
    crawl_all now (xs ++ Except.error () :: ys) st = crawl_all now (xs ++ ys) st := by
  simp [crawl_all, List.foldl_append, List.foldl_cons]

/-- Counterexample to C7 as stated: in `scraper_jombangkab`, a failed
per-candidate secondary fetch hits `continue` and the candidate is OMITTED
from the returned sequence, not emitted with a degraded timestamp. -/
theorem secondary_fetch_counterexample :
    scraper_jombangkab_go "2025-01-01T00:00:00" (fun _ => Except.error ())
      ["https://www.jombangkab.go.id/berita/pemerintahan/contoh-1"] = Except.ok [] := rfl

/-- Claim C7 as amended: in the detik-style variants (detik, tribunjatim,
wartajombang) a failed secondary fetch is non-fatal — every candidate
reaching the per-item stage is emitted, a failed fetch degrading its
timestamp to the current instant; in the jombangkab variant, whose title
itself comes from the secondary fetch, a failed fetch omits the candidate. -/
theorem secondary_fetch_policy (now : String) (cands : List (String × String))
    (page : String → Except Unit DetikPage) (url title : String)
    (hmem : (url, title) ∈ cands) (hfail : page url = Except.error ()) :
    (scraper_detik_items now cands page).length = cands.length
    ∧ (⟨some title, some url, some "detik.com", some (some now), none⟩ : RawItem)
        ∈ scraper_detik_items now cands page
    ∧ (∀ links : List String,
        scraper_jombangkab_go now (fun _ => Except.error ()) links = Except.ok []) := by
  refine ⟨by simp [scraper_detik_items], ?_, ?_⟩
  · have hm := List.mem_map_of_mem (fun c : String × String =>
      (⟨some c.2, some c.1, some "detik.com", some (detik_pub now (page c.1)), none⟩ : RawItem))
      hmem
    simpa [scraper_detik_items, detik_pub, hfail] using hm
  · intro links
    induction links with
    | nil => rfl
    | cons l ls ih => simp [scraper_jombangkab_go, ih]

/-- Witness for C7 (amended): with the only secondary fetch failing, the
detik stage still emits the candidate, stamped with the injected instant. -/
theorem secondary_fetch_policy_witness :
    (⟨some "Judul", some "https://d/1", some "detik.com",
        some (some "2025-01-01T00:00:00"), none⟩ : RawItem)
      ∈ scraper_detik_items "2025-01-01T00:00:00" [("https://d/1", "Judul")]
          (fun _ => Except.error ()) :=
  (secondary_fetch_policy "2025-01-01T00:00:00" [("https://d/1", "Judul")]
    (fun _ => Except.error ()) "https://d/1" "Judul" (by simp) rfl).2.1

/-- Claim C9 (code bug): the compiled pattern of `parse_id_date` — written
with doubled backslashes inside a raw string — cannot match a real
Indonesian long-form date, so `25 Agustus 2025` (alone or embedded in prose)
yields `None` instead of `2025-08-25T00:00:00`, and the jombangkab scraper
then falls back to the ingestion instant for such pages. -/
theorem parse_id_date_bug :
    parse_id_date (some "25 Agustus 2025") = Except.ok none
    ∧ parse_id_date (some "Diterbitkan 25 Agustus 2025 oleh admin") = Except.ok none
    ∧ scraper_jombangkab_go "2025-09-01T00:00:00"
        (fun _ => Except.ok ⟨some "Judul", "25 Agustus 2025"⟩) ["https://w/berita/a/b-1"]
      = Except.ok [⟨some "Judul", some "https://w/berita/a/b-1", some "jombangkab.go.id",
          some (some "2025-09-01T00:00:00"), none⟩] := by
  exact ⟨rfl, rfl, rfl⟩

theorem list_sum_map_add {α : Type} (l : List α) (f g : α → Nat) :
    (l.map (fun x => f x + g x)).sum = (l.map f).sum + (l.map g).sum := by
  induction l with
  | nil => rfl
  | cons a t ih =>
    simp only [List.map_cons, List.sum_cons, ih]
    omega

theorem length_filter_cons {α : Type} (a : α) (t : List α) (q : α → Bool) :
    ((a :: t).filter q).length = (if q a then 1 else 0) + (t.filter q).length := by
  by_cases h : q a
  · simp [List.filter_cons, h, Nat.add_comm]
  · simp [List.filter_cons, h]

theorem indicator_range_sum (k d0 : Nat) (hk : d0 ≤ k) :
    ∀ n : Nat, ((List.range n).map (fun i => if k = d0 + i then 1 else 0)).sum
      = if k < d0 + n then 1 else 0
  | 0 => by
    rw [if_neg (by omega)]
    rfl
  | n + 1 => by
    rw [List.range_succ, List.map_append, List.sum_append, indicator_range_sum k d0 hk n]
    simp only [List.map_cons, List.map_nil, List.sum_cons, List.sum_nil]
    by_cases h1 : k < d0 + n
    · rw [if_pos h1, if_neg (by omega), if_pos (by omega)]
      omega
    · by_cases h2 : k = d0 + n
      · rw [if_neg h1, if_pos h2, if_pos (by omega)]
        omega
      · rw [if_neg h1, if_neg h2, if_neg (by omega)]
        omega

/-- Summing, over a half-open day range, the counts of rows that pass `P`
and fall on each day equals the count of rows that pass `P` and fall in the
range, provided `P` already bounds the day from below. -/
theorem count_partition (P : TrendRow → Bool) (key : TrendRow → Nat) (d0 n : Nat)
    (hP : ∀ a, P a = true → d0 ≤ key a) :
    ∀ st : List TrendRow,
      ((List.range n).map
          (fun i => (st.filter (fun a => P a && (key a == d0 + i))).length)).sum
        = (st.filter (fun a => P a && decide (key a < d0 + n))).length
  | [] => by simp
  | a :: t => by
    have ih := count_partition P key d0 n hP t
    have hstep : ∀ i ∈ List.range n,
        ((a :: t).filter (fun x => P x && (key x == d0 + i))).length
          = (if (P a && (key a == d0 + i)) then 1 else 0)
            + (t.filter (fun x => P x && (key x == d0 + i))).length :=
      fun i _ => length_filter_cons a t _
    rw [List.map_congr_left hstep, list_sum_map_add, ih, length_filter_cons]
    by_cases hPa : P a
    · have hconv : ∀ i ∈ List.range n,
          (if (P a && (key a == d0 + i)) then (1 : Nat) else 0)
            = (if key a = d0 + i then 1 else 0) := by
        intro i _
        simp [hPa]
      rw [List.map_congr_left hconv, indicator_range_sum (key a) d0 (hP a hPa) n]
      simp [hPa]
    · have hconv : ∀ i ∈ List.range n,
          (if (P a && (key a == d0 + i)) then (1 : Nat) else 0) = 0 := by
        intro i _
        simp [hPa]
      rw [List.map_congr_left hconv]
      simp [hPa]

/-- Claim C6: over the window `since = now - days`, `api_trend` returns
exactly one entry per calendar day of the inclusive day range from
`day(since)` to `day(now)` (`days + 1` entries, zero-count days explicitly
present), and the per-day counts sum to the number of stored articles whose
`publishedAt` is at least `since` and whose calendar day is at most the
window's last day. -/
theorem api_trend_complete (st : List TrendRow) (now days : Nat) (h : days * 1440 ≤ now) :
    ((api_trend st now days).map Prod.fst
        = (List.range (days + 1)).map (fun i => dayOf (now - days * 1440) + i))
    ∧ (api_trend st now days).length = days + 1
    ∧ dayOf (now - days * 1440) + days = dayOf now
    ∧ ((api_trend st now days).map Prod.snd).sum
        = (st.filter (fun a => now - days * 1440 ≤ a.publishedAt
            && dayOf a.publishedAt ≤ dayOf now)).length := by
  have hday : dayOf (now - days * 1440) + days = dayOf now := by
    unfold dayOf
    conv_rhs => rw [← Nat.sub_add_cancel h]
    rw [show days * 1440 = 1440 * days from Nat.mul_comm days 1440,
      Nat.add_mul_div_left _ _ (by norm_num)]
  refine ⟨?_, ?_, hday, ?_⟩
  · simp [api_trend, List.map_map]
  · simp [api_trend]
  · have hsum := count_partition (fun a => decide (now - days * 1440 ≤ a.publishedAt))
      (fun a => dayOf a.publishedAt) (dayOf (now - days * 1440)) (days + 1)
      (fun a ha => Nat.div_le_div_right (of_decide_eq_true ha)) st
    have hiff : ∀ a ∈ st,
        ((decide (now - days * 1440 ≤ a.publishedAt)
            && decide (dayOf a.publishedAt < dayOf (now - days * 1440) + (days + 1))) : Bool)
          = (decide (now - days * 1440 ≤ a.publishedAt)
            && decide (dayOf a.publishedAt ≤ dayOf now)) := by
      intro a _
      have : (decide (dayOf a.publishedAt < dayOf (now - days * 1440) + (days + 1)) : Bool)
          = decide (dayOf a.publishedAt ≤ dayOf now) := by
        rw [decide_eq_decide, ← hday]
        omega
      rw [this]
    rw [List.filter_congr hiff] at hsum
    simpa [api_trend, trendCount, List.map_map] using hsum

/-- Witness for C6 at a concrete store and window: two rows, one inside the
window on its last day and one before `since`; the per-day counts sum to the
single in-range row, and there are `days + 1` entries. -/
theorem api_trend_complete_witness :
    ((api_trend [⟨2880⟩, ⟨100⟩] 4000 2).map Prod.snd).sum
      = (([⟨2880⟩, ⟨100⟩] : List TrendRow).filter
          (fun a => 4000 - 2 * 1440 ≤ a.publishedAt && dayOf a.publishedAt ≤ dayOf 4000)).length
    ∧ (api_trend [⟨2880⟩, ⟨100⟩] 4000 2).length = 2 + 1 :=
  ⟨(api_trend_complete [⟨2880⟩, ⟨100⟩] 4000 2 (by decide)).2.2.2,
   (api_trend_complete [⟨2880⟩, ⟨100⟩] 4000 2 (by decide)).2.1⟩

end Trend
